import Mathlib

/-!
# Verification of the ADB device-automation operator

Shallow embedding of `src/packages/operators/adb/src/index.ts` (class
`AdbOperator` with its `screenshot` and `execute` methods), together with a
model of the Coordinate Mapper (`parseBoxToScreenCoords`, imported by the
source from `@ui-tars/sdk/core`, whose implementation is not part of the
sources under verification; it is modelled from the specification).

Modelling conventions:
* The Command Runner (`commandWithTimeout`, built on `execa`) is an external
  effect.  Each command invocation either succeeds or fails/times out; an
  environment records the outcome of every invocation.  In `screenshot` the
  source attaches `.catch(() => ({stdout: ''}))` to the runner promises, so a
  failing command there merely produces no side effect; in `execute` the
  runner promise is not caught, so a failure propagates to the surrounding
  `try`/`catch`, which logs and rethrows.
* Files are byte payloads.  A PNG file that the image library can decode is
  `FileData.png w h payload`; any other byte string is `FileData.raw payload`.
  `Buffer.toString('base64')` is an injective encoding of the raw bytes, so
  the base64 payload of a `ScreenshotOutput` is modelled by the `FileData`
  it encodes.
* The host working directory is a list of (path, contents) pairs, most recent
  write first; paths are normalised by dropping a leading `./` so that
  `./f.png` and `f.png` denote the same file, as they do on a real
  filesystem.
* JavaScript numbers appearing in coordinate math are modelled exactly by
  non-negative fractions `Frac` (numerator/denominator), with `Frac.round`
  proved to agree with the mathematical `⌊x + 1/2⌋` semantics of
  `Math.round` on non-negative values.
-/

/-! ## Characters, trimming, digit parsing -/

/-- Whitespace recognised by `String.prototype.trim` (the characters that
actually occur in the inputs of interest). -/
def isSpaceChar (c : Char) : Bool :=
  c = ' ' ∨ c = '\t' ∨ c = '\n' ∨ c = '\r'

/-- JavaScript `s.trim()`: drop leading and trailing whitespace. -/
def jsTrim (s : String) : String :=
  ⟨((s.data.dropWhile isSpaceChar).reverse.dropWhile isSpaceChar).reverse⟩

/-- Split a character list at every occurrence of `sep` (like
`String.prototype.split(sep)` for a one-character separator). -/
def splitChars (sep : Char) : List Char → List (List Char)
  | [] => [[]]
  | c :: cs =>
    let r := splitChars sep cs
    if c = sep then
      [] :: r
    else
      match r with
      | h :: t => (c :: h) :: t
      | [] => [[c]]

/-- Value of a decimal digit character, `none` for non-digits. -/
def digitVal (c : Char) : Option Nat :=
  if '0' ≤ c ∧ c ≤ '9' then some (c.toNat - 48) else none

/-- Read a non-empty all-digit character list as a natural number. -/
def parseNatChars : List Char → Option Nat
  | [] => none
  | cs => go 0 cs
where
  go : Nat → List Char → Option Nat
    | acc, [] => some acc
    | acc, c :: cs =>
      match digitVal c with
      | some d => go (acc * 10 + d) cs
      | none => none

/-! ## Exact non-negative fractions

JavaScript computes the coordinate math in floating point; all values that
occur (finite decimals scaled by integer screen dimensions, averaged in
pairs) are represented exactly here by fractions with a positive
denominator. -/

structure Frac where
  num : Nat
  den : Nat
deriving Repr, DecidableEq

namespace Frac

/-- The rational value of a fraction. -/
def toRat (f : Frac) : ℚ := (f.num : ℚ) / f.den

/-- Scale by a natural number (multiplication by a screen dimension). -/
def scale (f : Frac) (k : Nat) : Frac := ⟨f.num * k, f.den⟩

/-- Average of two fractions (centroid of a box's two corners). -/
def avg (a b : Frac) : Frac := ⟨a.num * b.den + b.num * a.den, 2 * (a.den * b.den)⟩

/-- `Math.round` on a non-negative value: `⌊x + 1/2⌋`, computed with natural
division. -/
def round (f : Frac) : Nat := (2 * f.num + f.den) / (2 * f.den)

theorem toRat_scale (f : Frac) (k : Nat) : (f.scale k).toRat = f.toRat * k := by
  simp only [toRat, scale]
  push_cast
  ring

theorem toRat_avg (a b : Frac) (ha : a.den ≠ 0) (hb : b.den ≠ 0) :
    (a.avg b).toRat = (a.toRat + b.toRat) / 2 := by
  have ha' : (a.den : ℚ) ≠ 0 := Nat.cast_ne_zero.mpr ha
  have hb' : (b.den : ℚ) ≠ 0 := Nat.cast_ne_zero.mpr hb
  have hd1 : (2 : ℚ) * ((a.den : ℚ) * (b.den : ℚ)) ≠ 0 :=
    mul_ne_zero two_ne_zero (mul_ne_zero ha' hb')
  have hd2 : (a.den : ℚ) * (b.den : ℚ) * 2 ≠ 0 :=
    mul_ne_zero (mul_ne_zero ha' hb') two_ne_zero
  simp only [toRat, avg]
  push_cast
  rw [div_add_div _ _ ha' hb', div_div, div_eq_div_iff hd1 hd2]
  ring

/-- The executable rounding agrees with the mathematical semantics of
`Math.round` on non-negative inputs. -/
theorem round_eq_floor (f : Frac) (h : f.den ≠ 0) :
    (f.round : ℤ) = ⌊f.toRat + 1 / 2⌋ := by
  have h2 : (2 * f.den : ℕ) ≠ 0 := by omega
  have hq : f.toRat + 1 / 2 = ((2 * f.num + f.den : ℕ) : ℚ) / ((2 * f.den : ℕ) : ℚ) := by
    have hd : (f.den : ℚ) ≠ 0 := by exact_mod_cast h
    simp only [toRat]
    push_cast
    field_simp
    ring
  rw [round, hq, Rat.floor_natCast_div_natCast]
  exact Int.ofNat_tdiv _ _

end Frac

/-- Parse a decimal literal such as `0.5`, `12`, `0.25` into an exact
fraction; `none` on anything else (after trimming surrounding spaces). -/
def parseDecimal (cs : List Char) : Option Frac :=
  let cs := (cs.dropWhile isSpaceChar).reverse.dropWhile isSpaceChar |>.reverse
  match splitChars '.' cs with
  | [intPart] =>
    match parseNatChars intPart with
    | some n => some ⟨n, 1⟩
    | none => none
  | [intPart, fracPart] =>
    match parseNatChars intPart, parseNatChars fracPart with
    | some n, some m => some ⟨n * 10 ^ fracPart.length + m, 10 ^ fracPart.length⟩
    | _, _ => none
  | _ => none

/-- Modelled from the spec: the Coordinate Mapper
(`parseBoxToScreenCoords` of `@ui-tars/sdk/core`; its implementation is not
among the sources under verification).  Per §4.2: parse the normalized box
string (one point `"x,y"` or a two-corner box `"x1,y1,x2,y2"`, optionally
bracketed), average the two corners of a box to obtain a centroid, scale by
the screen dimensions, and yield `(null, null)` on malformed input rather
than failing. -/
def parseBoxToScreenCoords (boxStr : String) (screenWidth screenHeight : Nat) :
    Option Frac × Option Frac :=
  let cleaned := boxStr.data.filter (fun c => c ≠ '[' ∧ c ≠ ']' ∧ c ≠ '(' ∧ c ≠ ')')
  match (splitChars ',' cleaned).mapM parseDecimal with
  | some [x, y] =>
    (some (x.scale screenWidth), some (y.scale screenHeight))
  | some [x1, y1, x2, y2] =>
    (some ((x1.avg x2).scale screenWidth), some ((y1.avg y2).scale screenHeight))
  | _ => (none, none)

/-! ## Shell escaping and the action dispatcher (`AdbOperator.execute`) -/

/-- Escaping of one character per the source's
`content.replace(/(['"\\])/g, '\\$1')`: a single quote, double quote or
backslash is prefixed with a backslash, anything else passes verbatim. -/
def escapeChar (c : Char) : List Char :=
  if c = '\'' ∨ c = '"' ∨ c = '\\' then ['\\', c] else [c]

/-- The escaped text carried by an `input text` command. -/
def escapedContent (s : String) : String :=
  ⟨(s.data.map escapeChar).flatten⟩

/-- `parsedPrediction` of an `ExecuteParams`: the action type together with
the `action_inputs` fields the dispatcher consults (absent keys are
`none`). -/
structure ParsedPrediction where
  action_type : String
  start_box : Option String
  end_box : Option String
  content : Option String
deriving Repr, DecidableEq

structure ExecuteParams where
  parsedPrediction : ParsedPrediction
  screenWidth : Nat
  screenHeight : Nat
deriving Repr, DecidableEq

/-- A device input command issued through the Command Runner, with the
computed arguments it carries. -/
inductive DeviceCommand where
  | tap (x y : Nat)
  | inputText (text : String)
  | swipe (x1 y1 x2 y2 : Nat) (durationMs : Nat)
deriving Repr, DecidableEq

/-- Observable outcome of one `execute` call: the device commands issued (in
order) and whether the call returned normally or threw. -/
structure ExecOutcome where
  issued : List DeviceCommand
  threw : Bool
deriving Repr, DecidableEq

/-- `AdbOperator.execute`.  `runnerOk` is the Command Runner environment: it
tells whether a runner invocation made by this call succeeds.  In the source
the runner promises inside the `switch` are not `.catch`-protected, so a
rejected command falls into the `catch` block, which logs and rethrows. -/
def execute (runnerOk : Bool) (p : ExecuteParams) : ExecOutcome :=
  let pp := p.parsedPrediction
  let startBoxStr := pp.start_box.getD ""
  let sc := parseBoxToScreenCoords startBoxStr p.screenWidth p.screenHeight
  let issue : DeviceCommand → ExecOutcome := fun c =>
    { issued := [c], threw := !runnerOk }
  let noop : ExecOutcome := { issued := [], threw := false }
  match pp.action_type with
  | "click" =>
    match sc.1, sc.2 with
    | some x, some y => issue (DeviceCommand.tap x.round y.round)
    | _, _ => noop
  | "type" =>
    let content := jsTrim (pp.content.getD "")
    if content = "" then noop
    else issue (DeviceCommand.inputText (escapedContent content))
  | "swipe" =>
    let eb := pp.end_box.getD ""
    if eb = "" then noop
    else
      let ec := parseBoxToScreenCoords eb p.screenWidth p.screenHeight
      match sc.1, sc.2, ec.1, ec.2 with
      | some sx, some sy, some ex, some ey =>
        issue (DeviceCommand.swipe sx.round sy.round ex.round ey.round 300)
      | _, _, _, _ => noop
  | _ => noop

/-! ## Decimal rendering of the round counter

JavaScript renders `${this.currentRound}` in decimal.  The rendering is
implemented with explicit fuel so that it is structurally recursive (and thus
evaluable), and proved injective below. -/

/-- The character of one decimal digit. -/
def digitChar (d : Nat) : Char :=
  match d with
  | 0 => '0' | 1 => '1' | 2 => '2' | 3 => '3' | 4 => '4'
  | 5 => '5' | 6 => '6' | 7 => '7' | 8 => '8' | 9 => '9'
  | _ => '*'

/-- Little-endian decimal digits of `n` (empty for `0`), with fuel. -/
def natDigitsRev (fuel n : Nat) : List Nat :=
  match fuel with
  | 0 => []
  | f + 1 => if n = 0 then [] else n % 10 :: natDigitsRev f (n / 10)

/-- Decimal rendering of a natural number. -/
def natRepr (n : Nat) : String :=
  if n = 0 then "0" else ⟨(natDigitsRev n n).reverse.map digitChar⟩

/-! ## Host and device file model -/

/-- A byte payload on disk: a PNG the image library decodes to the recorded
dimensions, or undecodable raw bytes. -/
inductive FileData where
  | png (width height : Nat) (payload : List Nat)
  | raw (payload : List Nat)
deriving Repr, DecidableEq

/-- `Jimp.read`: the decoded pixel dimensions of a file, `none` when decoding
fails (corrupt or non-PNG content). -/
def decodeImage : FileData → Option (Nat × Nat)
  | FileData.png w h _ => some (w, h)
  | FileData.raw _ => none

/-- Normalise a host path: a leading `./` is not part of the file name. -/
def normPath (p : String) : String :=
  match p.data with
  | '.' :: '/' :: rest => ⟨rest⟩
  | _ => p

/-- The host working directory: most recent write first. -/
def FsState := List (String × FileData)

/-- Read a file, `none` when it does not exist. -/
def fsRead (fs : FsState) (p : String) : Option FileData :=
  (List.find? (fun e => e.1 = normPath p) fs).map Prod.snd

/-- Write (create or overwrite) a file. -/
def fsWrite (fs : FsState) (p : String) (d : FileData) : FsState :=
  (normPath p, d) :: fs

/-! ## The screenshot pipeline (`AdbOperator.screenshot`) -/

/-- The operator's mutable state: the bound device identifier and the round
counter (`private currentRound = 0` in the source). -/
structure AdbOperator where
  deviceId : String
  currentRound : Nat
deriving Repr, DecidableEq

/-- `new AdbOperator(deviceId)`. -/
def initOperator (deviceId : String) : AdbOperator :=
  { deviceId := deviceId, currentRound := 0 }

/-- The world outside the operator: the on-device capture file
(`/sdcard/uitars_screenshot.png`) and the host working directory. -/
structure World where
  device : Option FileData
  host : FsState

/-- Command Runner environment for one `screenshot` call: whether the
`screencap` and `pull` invocations succeed, and the bitmap the device would
capture.  Both invocations are `.catch`-protected in the source, so a failed
invocation has no effect and produces empty output. -/
structure ShotEnv where
  capOk : Bool
  pullOk : Bool
  screen : FileData

/-- Why a `screenshot` call threw. -/
inductive ShotErr where
  | pulledMissing   -- `Jimp.read` threw: the per-round pulled file does not exist
  | decodeFailed    -- `Jimp.read` threw: the file exists but cannot be decoded
  | baseMissing     -- `readFileSync` threw: `uitars_screenshot.png` does not exist
deriving Repr, DecidableEq

/-- The value returned by a successful `screenshot` call.  The `base64`
field records the bytes whose base64 encoding is returned (the encoding
itself is injective, so the bytes determine the payload and vice versa). -/
structure ScreenshotOutput where
  base64 : FileData
  width : Nat
  height : Nat
  scaleFactor : Nat
deriving Repr, DecidableEq

/-- Result of one `screenshot` call. -/
inductive ShotResult where
  | ok (out : ScreenshotOutput)
  | error (e : ShotErr)
deriving Repr, DecidableEq

/-- The host-local per-round pull target `./uitars_screenshot_<round>.png`. -/
def pullPath (round : Nat) : String :=
  "./uitars_screenshot_" ++ natRepr round ++ ".png"

/-- The path passed to `readFileSync` for base64 encoding:
`'uitars_screenshot.png'`, as written in the source. -/
def basePath : String := "uitars_screenshot.png"

/-- `AdbOperator.screenshot`, step by step:
1. `this.currentRound++` (before the `try` block);
2. `screencap` on the device, `.catch`-protected: on success the device file
   holds the current screen bitmap, on failure nothing changes;
3. `pull` to `./uitars_screenshot_<round>.png`, `.catch`-protected: on
   success the device file's bytes are copied to the per-round host path
   (the pull fails outright when the device file is absent);
4. `Jimp.read('./uitars_screenshot_<round>.png')` for width and height,
   throwing when the file is missing or undecodable;
5. `readFileSync('uitars_screenshot.png')` and base64 encoding;
6. return `{ base64, width, height, scaleFactor: 1 }`.
Anything thrown inside the `try` is logged and rethrown. -/
def screenshotBody (env : ShotEnv) (r : Nat) (w : World) : World × ShotResult :=
  let w1 := if env.capOk then { w with device := some env.screen } else w
  let w2 :=
    if env.pullOk then
      match w1.device with
      | some d => { w1 with host := fsWrite w1.host (pullPath r) d }
      | none => w1
    else w1
  match fsRead w2.host (pullPath r) with
  | none => (w2, ShotResult.error ShotErr.pulledMissing)
  | some f =>
    match decodeImage f with
    | none => (w2, ShotResult.error ShotErr.decodeFailed)
    | some wh =>
      match fsRead w2.host basePath with
      | none => (w2, ShotResult.error ShotErr.baseMissing)
      | some buf =>
        (w2,
          ShotResult.ok
            { base64 := buf, width := wh.1, height := wh.2, scaleFactor := 1 })

/-- `AdbOperator.screenshot`: increment the round counter, then run the
pipeline body at the new round. -/
def screenshot (env : ShotEnv) (op : AdbOperator) (w : World) :
    AdbOperator × World × ShotResult :=
  ({ op with currentRound := op.currentRound + 1 },
    screenshotBody env (op.currentRound + 1) w)

/-- Run a sequence of `screenshot` calls; each entry of the returned list is
the round number the call used together with its result. -/
def runShots (envs : List ShotEnv) (op : AdbOperator) (w : World) :
    AdbOperator × World × List (Nat × ShotResult) :=
  match envs with
  | [] => (op, w, [])
  | e :: es =>
    let s := screenshot e op w
    let rest := runShots es s.1 s.2.1
    (rest.1, rest.2.1, (s.1.currentRound, s.2.2) :: rest.2.2)

/-! ## Interleaved public calls on one operator instance -/

/-- One public call on the operator: a screenshot (with its runner
environment) or an execute (with its runner environment and parameters). -/
inductive OpCall where
  | shot (env : ShotEnv)
  | exec (runnerOk : Bool) (p : ExecuteParams)

/-- Count the screenshot calls in a trace. -/
def countShots : List OpCall → Nat
  | [] => 0
  | OpCall.shot _ :: t => countShots t + 1
  | OpCall.exec _ _ :: t => countShots t

/-- Effect of one public call on the operator state and the world.
`execute` issues input events through the Command Runner; it neither touches
the round counter nor writes any file, so it leaves both unchanged. -/
def stepOp (c : OpCall) (s : AdbOperator × World) : AdbOperator × World :=
  match c with
  | OpCall.shot env =>
    let r := screenshot env s.1 s.2
    (r.1, r.2.1)
  | OpCall.exec _ _ => s

/-- Run a trace of public calls. -/
def runOps (cs : List OpCall) (s : AdbOperator × World) : AdbOperator × World :=
  match cs with
  | [] => s
  | c :: t => runOps t (stepOp c s)

/-! ## Injectivity of the decimal rendering and of the per-round paths -/

/-- Value of a little-endian digit list (inverse of `natDigitsRev`). -/
def unDigits : List Nat → Nat
  | [] => 0
  | d :: ds => d + 10 * unDigits ds

theorem unDigits_natDigitsRev (fuel : Nat) :
    ∀ n, n ≤ fuel → unDigits (natDigitsRev fuel n) = n := by
  induction fuel with
  | zero => intro n h; interval_cases n; rfl
  | succ f ih =>
    intro n h
    by_cases h0 : n = 0
    · subst h0; rfl
    · have hlt : n / 10 < n := Nat.div_lt_self (Nat.pos_of_ne_zero h0) (by omega)
      simp only [natDigitsRev, if_neg h0, unDigits]
      rw [ih (n / 10) (by omega)]
      omega

theorem natDigitsRev_lt (fuel : Nat) :
    ∀ n, ∀ d ∈ natDigitsRev fuel n, d < 10 := by
  induction fuel with
  | zero => intro n d hd; simp [natDigitsRev] at hd
  | succ f ih =>
    intro n d hd
    by_cases h0 : n = 0
    · subst h0; simp [natDigitsRev] at hd
    · simp only [natDigitsRev, if_neg h0] at hd
      rcases List.mem_cons.mp hd with h | h
      · subst h; exact Nat.mod_lt _ (by omega)
      · exact ih _ _ h

theorem digitChar_inj : ∀ a < 10, ∀ b < 10, digitChar a = digitChar b → a = b := by decide

theorem map_digitChar_inj :
    ∀ (l1 l2 : List Nat), (∀ d ∈ l1, d < 10) → (∀ d ∈ l2, d < 10) →
      l1.map digitChar = l2.map digitChar → l1 = l2 := by
  intro l1
  induction l1 with
  | nil => intro l2 _ _ h; cases l2 with
    | nil => rfl
    | cons b t => simp at h
  | cons a t ih =>
    intro l2 h1 h2 h
    cases l2 with
    | nil => simp at h
    | cons b t2 =>
      simp only [List.map_cons, List.cons.injEq] at h
      have ha : a < 10 := h1 a (List.mem_cons_self a t)
      have hb : b < 10 := h2 b (List.mem_cons_self b t2)
      have hab := digitChar_inj a ha b hb h.1
      have ht := ih t2 (fun d hd => h1 d (List.mem_cons_of_mem _ hd))
        (fun d hd => h2 d (List.mem_cons_of_mem _ hd)) h.2
      rw [hab, ht]

theorem natRepr_inj : ∀ m n : Nat, natRepr m = natRepr n → m = n := by
  have key : ∀ k : Nat, k ≠ 0 →
      ((natDigitsRev k k).reverse.map digitChar = ['0'] → False) := by
    intro k hk h
    have hrev : (natDigitsRev k k).reverse = [0] := by
      apply map_digitChar_inj
      · intro d hd; exact natDigitsRev_lt k k d (List.mem_reverse.mp hd)
      · intro d hd; simp at hd; omega
      · simpa using h
    have : natDigitsRev k k = [0] := by
      have := congrArg List.reverse hrev
      simpa using this
    have hv := unDigits_natDigitsRev k k le_rfl
    rw [this] at hv
    simp [unDigits] at hv
    omega
  intro m n h
  unfold natRepr at h
  by_cases hm : m = 0 <;> by_cases hn : n = 0
  · omega
  · rw [if_pos hm, if_neg hn] at h
    exact absurd (congrArg String.data h).symm (key n hn)
  · rw [if_neg hm, if_pos hn] at h
    exact absurd (congrArg String.data h) (key m hm)
  · rw [if_neg hm, if_neg hn] at h
    have hd := congrArg String.data h
    have hrev : (natDigitsRev m m).reverse = (natDigitsRev n n).reverse := by
      apply map_digitChar_inj
      · intro d hd2; exact natDigitsRev_lt m m d (List.mem_reverse.mp hd2)
      · intro d hd2; exact natDigitsRev_lt n n d (List.mem_reverse.mp hd2)
      · exact hd
    have hdig : natDigitsRev m m = natDigitsRev n n := by
      have := congrArg List.reverse hrev
      simpa using this
    have hm' := unDigits_natDigitsRev m m le_rfl
    have hn' := unDigits_natDigitsRev n n le_rfl
    rw [hdig] at hm'
    omega

theorem natRepr_length_pos (n : Nat) : 1 ≤ (natRepr n).data.length := by
  unfold natRepr
  by_cases h : n = 0
  · rw [if_pos h]; decide
  · rw [if_neg h]
    simp only [List.length_map, List.length_reverse]
    cases hn : natDigitsRev n n with
    | cons d t => simp
    | nil =>
      exfalso
      have hv := unDigits_natDigitsRev n n le_rfl
      rw [hn] at hv
      simp [unDigits] at hv
      exact h hv.symm

theorem data_pullPath (n : Nat) :
    (pullPath n).data =
      '.' :: '/' :: ("uitars_screenshot_".data ++ ((natRepr n).data ++ ".png".data)) := by
  simp only [pullPath, String.data_append]
  show ('.' :: '/' :: "uitars_screenshot_".data) ++ (natRepr n).data ++ ".png".data = _
  simp [List.append_assoc]

theorem normPath_pullPath (n : Nat) :
    normPath (pullPath n) =
      ⟨"uitars_screenshot_".data ++ ((natRepr n).data ++ ".png".data)⟩ := by
  unfold normPath
  rw [data_pullPath]
  rfl

theorem pullPath_inj : ∀ m n : Nat, pullPath m = pullPath n → m = n := by
  intro m n h
  apply natRepr_inj
  have hd := congrArg String.data h
  rw [data_pullPath, data_pullPath] at hd
  simp only [List.cons.injEq] at hd
  have h1 := List.append_cancel_left hd.2.2
  have h2 := List.append_cancel_right h1
  exact String.ext h2

theorem normPath_pullPath_inj : ∀ m n : Nat,
    normPath (pullPath m) = normPath (pullPath n) → m = n := by
  intro m n h
  rw [normPath_pullPath, normPath_pullPath] at h
  apply natRepr_inj
  have hd := congrArg String.data h
  simp only at hd
  have h1 := List.append_cancel_left hd
  have h2 := List.append_cancel_right h1
  exact String.ext h2

theorem normPath_pullPath_ne_base (n : Nat) :
    normPath (pullPath n) ≠ normPath basePath := by
  intro h
  rw [normPath_pullPath] at h
  have hdata : "uitars_screenshot_".data ++ ((natRepr n).data ++ ".png".data)
      = (normPath basePath).data := congrArg String.data h
  have hlen := congrArg List.length hdata
  have h1 := natRepr_length_pos n
  have h21 : (normPath basePath).length = 21 := by decide
  simp at hlen
  omega

/-! ## Filesystem and pipeline helper lemmas -/

theorem fsRead_fsWrite (fs : FsState) (p q : String) (d : FileData) :
    fsRead (fsWrite fs p d) q =
      if normPath q = normPath p then some d else fsRead fs q := by
  by_cases h : normPath q = normPath p
  · simp [fsRead, fsWrite, List.find?, h]
  · simp only [fsRead, fsWrite, List.find?]
    rw [if_neg h]
    have : (decide ((normPath p, d).1 = normPath q)) = false := by
      simp only [decide_eq_false_iff_not]
      exact fun hc => h (hc.symm)
    simp [this, fsRead]

/-- The Coordinate Mapper resolves the empty box string to `(null, null)`. -/
theorem parseBox_empty (W H : Nat) : parseBoxToScreenCoords "" W H = (none, none) := rfl

/-- The round counter is incremented on every `screenshot` call, before any
capture, pull or decode step, whatever the outcome of the call. -/
theorem screenshot_round (env : ShotEnv) (op : AdbOperator) (w : World) :
    (screenshot env op w).1.currentRound = op.currentRound + 1 := rfl

/-- A `screenshot` call whose two runner invocations both fail leaves the
world unchanged. -/
theorem screenshotBody_all_fail (env : ShotEnv) (r : Nat) (w : World)
    (hcap : env.capOk = false) (hpull : env.pullOk = false) :
    (screenshotBody env r w).1 = w := by
  simp only [screenshotBody, hcap, hpull, if_false]
  split <;> try rfl
  split <;> try rfl
  split <;> rfl

/-! ## Two concurrent `screenshot` calls on one instance (C9 model)

JavaScript is single-threaded and cooperative: a task can only be preempted
at an `await`.  `this.currentRound++` executes before the first `await` of
`screenshot`, so it is one atomic micro-step; the remaining micro-steps
(screencap, pull, decode, read) run at later scheduling points and never
touch the counter.  A task is modelled by a program counter (`pc = 0`:
has not yet run its increment; `pc ≥ 1`: increment done, `round` holds the
round number the call captured) and the scheduler by the list of which task
performs its next micro-step. -/

structure TaskState where
  pc : Nat
  round : Nat
deriving Repr, DecidableEq

/-- One micro-step of a screenshot call: the first step atomically
increments the shared counter and captures the new value; later steps leave
the counter alone. -/
def taskStep (counter : Nat) (t : TaskState) : Nat × TaskState :=
  if t.pc = 0 then (counter + 1, ⟨1, counter + 1⟩)
  else (counter, ⟨t.pc + 1, t.round⟩)

/-- Shared state of two in-flight `screenshot` calls on one instance. -/
structure ConcState where
  counter : Nat
  ta : TaskState
  tb : TaskState
deriving Repr, DecidableEq

/-- Let the scheduled task perform its next micro-step. -/
def concStep (s : ConcState) (choice : Bool) : ConcState :=
  if choice then
    let r := taskStep s.counter s.ta
    ⟨r.1, r.2, s.tb⟩
  else
    let r := taskStep s.counter s.tb
    ⟨r.1, s.ta, r.2⟩

/-- Run a schedule. -/
def runConc (sched : List Bool) (s : ConcState) : ConcState :=
  match sched with
  | [] => s
  | c :: t => runConc t (concStep s c)

/-- Both calls start before either has run its increment; the instance's
counter holds an arbitrary previous value `c0`. -/
def concInit (c0 : Nat) : ConcState := ⟨c0, ⟨0, 0⟩, ⟨0, 0⟩⟩

/-- Reachability invariant of the two-call system. -/
def ConcInv (c0 : Nat) (s : ConcState) : Prop :=
  (s.ta.pc = 0 ∧ s.tb.pc = 0 ∧ s.counter = c0) ∨
  (0 < s.ta.pc ∧ s.tb.pc = 0 ∧ s.counter = c0 + 1 ∧ s.ta.round = c0 + 1) ∨
  (s.ta.pc = 0 ∧ 0 < s.tb.pc ∧ s.counter = c0 + 1 ∧ s.tb.round = c0 + 1) ∨
  (0 < s.ta.pc ∧ 0 < s.tb.pc ∧ s.counter = c0 + 2 ∧
    ((s.ta.round = c0 + 1 ∧ s.tb.round = c0 + 2) ∨
     (s.ta.round = c0 + 2 ∧ s.tb.round = c0 + 1)))

theorem concStep_inv (c0 : Nat) (s : ConcState) (choice : Bool)
    (h : ConcInv c0 s) : ConcInv c0 (concStep s choice) := by
  obtain ⟨c, ⟨pa, ra⟩, ⟨pb, rb⟩⟩ := s
  cases choice <;>
    by_cases hpa : pa = 0 <;> by_cases hpb : pb = 0 <;>
      simp [ConcInv, concStep, taskStep, hpa, hpb] at h ⊢ <;>
      omega

theorem runConc_inv_aux (c0 : Nat) (sched : List Bool) :
    ∀ s, ConcInv c0 s → ConcInv c0 (runConc sched s) := by
  induction sched with
  | nil => intro s h; exact h
  | cons c t ih => intro s h; exact ih _ (concStep_inv c0 s c h)

theorem runConc_inv (c0 : Nat) (sched : List Bool) :
    ConcInv c0 (runConc sched (concInit c0)) :=
  runConc_inv_aux c0 sched _ (Or.inl ⟨rfl, rfl, rfl⟩)

/-! ## Helper lemmas for the claim theorems -/

theorem runOps_round (cs : List OpCall) :
    ∀ s : AdbOperator × World,
      (runOps cs s).1.currentRound = s.1.currentRound + countShots cs := by
  induction cs with
  | nil => intro s; rfl
  | cons c t ih =>
    intro s
    cases c with
    | shot env =>
      show (runOps t (stepOp (OpCall.shot env) s)).1.currentRound = _
      rw [ih]
      show (screenshot env s.1 s.2).1.currentRound + countShots t
          = s.1.currentRound + (countShots t + 1)
      rw [screenshot_round]
      omega
    | exec ok p =>
      show (runOps t s).1.currentRound = _
      rw [ih]
      rfl

theorem runShots_rounds (envs : List ShotEnv) :
    ∀ (op : AdbOperator) (w : World),
      (runShots envs op w).2.2.map Prod.fst
          = List.range' (op.currentRound + 1) envs.length ∧
      (runShots envs op w).1.currentRound = op.currentRound + envs.length := by
  induction envs with
  | nil => intro op w; exact ⟨rfl, rfl⟩
  | cons e t ih =>
    intro op w
    have h := ih (screenshot e op w).1 (screenshot e op w).2.1
    constructor
    · show List.map Prod.fst
          (((screenshot e op w).1.currentRound, (screenshot e op w).2.2)
            :: (runShots t (screenshot e op w).1 (screenshot e op w).2.1).2.2) = _
      rw [List.map_cons, h.1, screenshot_round]
      rfl
    · show (runShots t (screenshot e op w).1 (screenshot e op w).2.1).1.currentRound = _
      rw [h.2]
      simp only [List.length_cons, screenshot_round]
      omega

/-! ## Claim theorems -/

/-- C1.  The source pulls the capture to `./uitars_screenshot_<round>.png`
and decodes that file for width and height, but passes the fixed path
`uitars_screenshot.png` to `readFileSync`; so a successful call returns a
base64 payload read from a different file than the per-round pulled file
that supplied the dimensions.  Concretely: with the device capture decoding
to 10×20 and a stale byte string at `uitars_screenshot.png`, the call
succeeds with width 10 and height 20 but with the stale bytes as base64
payload, while the pulled per-round file holds the capture; and no round's
pull path ever names the same file as the path that is read. -/
theorem screenshot_reads_fixed_path_not_pulled :
    ((screenshot ⟨true, true, FileData.png 10 20 [1, 2, 3]⟩ (initOperator "d")
        ⟨none, [("uitars_screenshot.png", FileData.raw [9])]⟩).2.2 =
      ShotResult.ok
        { base64 := FileData.raw [9], width := 10, height := 20, scaleFactor := 1 }) ∧
    (fsRead (screenshot ⟨true, true, FileData.png 10 20 [1, 2, 3]⟩ (initOperator "d")
        ⟨none, [("uitars_screenshot.png", FileData.raw [9])]⟩).2.1.host (pullPath 1) =
      some (FileData.png 10 20 [1, 2, 3])) ∧
    (∀ n, normPath (pullPath n) ≠ normPath basePath) :=
  ⟨by decide, by decide, normPath_pullPath_ne_base⟩

/-- C2 counterexample.  A run in which every Command Runner invocation
fails can still return a `ScreenshotResult`: if stale files from an earlier
process sit at the per-round pull path and at `uitars_screenshot.png`, the
pipeline reads them and succeeds, so the claim as stated (failure reported
in *every* such execution) is false. -/
theorem screenshot_all_fail_stale_ok :
    (screenshot ⟨false, false, FileData.raw []⟩ (initOperator "d")
        ⟨none, [("uitars_screenshot_1.png", FileData.png 7 8 [1]),
                ("uitars_screenshot.png", FileData.raw [2])]⟩).2.2 =
      ShotResult.ok
        { base64 := FileData.raw [2], width := 7, height := 8, scaleFactor := 1 } := by
  decide

/-- C2 (amended).  When every Command Runner invocation fails and the host
working directory holds no file at the current round's pull path, the
`screenshot` call throws (the decode step finds no file), and in particular
never returns a `ScreenshotResult` with zero dimensions. -/
theorem screenshot_all_fail_throws (env : ShotEnv) (op : AdbOperator) (w : World)
    (hcap : env.capOk = false) (hpull : env.pullOk = false)
    (hfs : fsRead w.host (pullPath (op.currentRound + 1)) = none) :
    (screenshot env op w).2.2 = ShotResult.error ShotErr.pulledMissing := by
  show (screenshotBody env (op.currentRound + 1) w).2 = _
  simp only [screenshotBody, hcap, hpull, Bool.false_eq_true, if_false, hfs]

theorem screenshot_all_fail_throws_witness :
    (screenshot ⟨false, false, FileData.raw []⟩ (initOperator "d") ⟨none, []⟩).2.2 =
      ShotResult.error ShotErr.pulledMissing :=
  screenshot_all_fail_throws _ _ _ rfl rfl (by decide)

/-- C3.  For a `swipe` action the dispatcher issues a command iff both
`start_box` and `end_box` resolve to non-null coordinate pairs, and when it
does, it issues exactly one swipe command carrying both rounded endpoint
pairs and the fixed 300 ms duration; single-sided resolution yields zero
commands. -/
theorem swipe_issues_iff_both_resolved (ok : Bool) (pp : ParsedPrediction)
    (W H : Nat) (h : pp.action_type = "swipe") :
    ((execute ok ⟨pp, W, H⟩).issued ≠ [] ↔
      ((parseBoxToScreenCoords (pp.start_box.getD "") W H).1.isSome ∧
       (parseBoxToScreenCoords (pp.start_box.getD "") W H).2.isSome ∧
       (parseBoxToScreenCoords (pp.end_box.getD "") W H).1.isSome ∧
       (parseBoxToScreenCoords (pp.end_box.getD "") W H).2.isSome)) ∧
    (∀ sx sy ex ey,
      parseBoxToScreenCoords (pp.start_box.getD "") W H = (some sx, some sy) →
      parseBoxToScreenCoords (pp.end_box.getD "") W H = (some ex, some ey) →
      (execute ok ⟨pp, W, H⟩).issued =
        [DeviceCommand.swipe sx.round sy.round ex.round ey.round 300]) := by
  obtain ⟨a, sb, eb, ct⟩ := pp
  simp only at h
  subst h
  by_cases he : eb.getD "" = ""
  · constructor
    · simp [execute, he, parseBox_empty]
    · intro sx sy ex ey h1 h2
      rw [he, parseBox_empty] at h2
      exact absurd h2 (by simp)
  · rcases h1 : (parseBoxToScreenCoords (sb.getD "") W H) with ⟨x, y⟩
    rcases h2 : (parseBoxToScreenCoords (eb.getD "") W H) with ⟨u, v⟩
    rcases x with _ | sx <;> rcases y with _ | sy <;>
      rcases u with _ | ex <;> rcases v with _ | ey <;>
      constructor <;>
      simp_all [execute, he]

theorem swipe_issues_iff_both_resolved_witness :
    (execute true ⟨⟨"swipe", some "0.1,0.2", some "0.3,0.4", none⟩, 100, 100⟩).issued =
      [DeviceCommand.swipe 10 20 30 40 300] :=
  (swipe_issues_iff_both_resolved true ⟨"swipe", some "0.1,0.2", some "0.3,0.4", none⟩
      100 100 rfl).2 ⟨100, 10⟩ ⟨200, 10⟩ ⟨300, 10⟩ ⟨400, 10⟩ (by decide) (by decide)

/-- C4.  For a `type` action: whitespace-only (or absent) content is a
no-op; non-empty content after trimming issues exactly one text-input
command carrying the trimmed content with every single quote, double quote
and backslash prefixed by a backslash (per `escapeChar`) and all other
characters verbatim.  Concretely, content `"  "` issues nothing and content
`O'Brien` carries the literal sequence backslash-quote. -/
theorem type_trims_escapes (ok : Bool) (pp : ParsedPrediction) (W H : Nat)
    (h : pp.action_type = "type") :
    ((execute ok ⟨pp, W, H⟩).issued =
      (if jsTrim (pp.content.getD "") = "" then []
       else [DeviceCommand.inputText (escapedContent (jsTrim (pp.content.getD "")))])) ∧
    ((execute ok ⟨{ pp with content := some "  " }, W, H⟩).issued = []) ∧
    ((execute ok ⟨{ pp with content := some "O'Brien" }, W, H⟩).issued =
      [DeviceCommand.inputText "O\\'Brien"]) ∧
    escapedContent "O'Brien" = "O\\'Brien" := by
  obtain ⟨a, sb, eb, ct⟩ := pp
  simp only at h
  subst h
  refine ⟨?_, ?_, ?_, by decide⟩
  · by_cases hc : jsTrim (ct.getD "") = "" <;> simp [execute, hc]
  · rfl
  · rfl

theorem type_trims_escapes_witness :
    (execute true ⟨⟨"type", none, none, some " hi "⟩, 5, 5⟩).issued =
      [DeviceCommand.inputText "hi"] := by
  rw [(type_trims_escapes true ⟨"type", none, none, some " hi "⟩ 5 5 rfl).1]
  decide

/-- C5.  For a `click` action: a resolved `start_box` issues exactly one
tap at the rounded coordinates; an unresolved one issues nothing; and the
end-to-end case `start_box = "0.5,0.5"`, 1000×2000 taps pixel (500, 1000). -/
theorem click_taps_rounded_or_noop (ok : Bool) (pp : ParsedPrediction) (W H : Nat)
    (h : pp.action_type = "click") :
    ((execute ok ⟨pp, W, H⟩).issued =
      (match parseBoxToScreenCoords (pp.start_box.getD "") W H with
       | (some x, some y) => [DeviceCommand.tap x.round y.round]
       | _ => [])) ∧
    ((execute true ⟨⟨"click", some "0.5,0.5", none, none⟩, 1000, 2000⟩).issued =
      [DeviceCommand.tap 500 1000]) := by
  obtain ⟨a, sb, eb, ct⟩ := pp
  simp only at h
  subst h
  constructor
  · rcases h1 : parseBoxToScreenCoords (sb.getD "") W H with ⟨x, y⟩
    rcases x with _ | sx <;> rcases y with _ | sy <;> simp [execute, h1]
  · decide

theorem click_taps_rounded_or_noop_witness :
    (execute true ⟨⟨"click", some "0.5,0.5", none, none⟩, 1000, 2000⟩).issued =
      [DeviceCommand.tap 500 1000] :=
  (click_taps_rounded_or_noop true ⟨"click", some "0.1,0.1", none, none⟩ 7 7 rfl).2

/-- C6.  Along any trace of public calls the round counter grows by exactly
the number of `screenshot` calls (so it never decreases), an `execute` call
leaves the operator state untouched, each `screenshot` call increments it by
exactly one, and two sequential `screenshot` calls on a fresh instance use
rounds 1 and 2, whose host-local capture filenames differ. -/
theorem round_counter_owned_by_screenshot (cs : List OpCall) (s : AdbOperator × World) :
    ((runOps cs s).1.currentRound = s.1.currentRound + countShots cs) ∧
    (s.1.currentRound ≤ (runOps cs s).1.currentRound) ∧
    (∀ ok p, stepOp (OpCall.exec ok p) s = s) ∧
    (∀ env, (stepOp (OpCall.shot env) s).1.currentRound = s.1.currentRound + 1) ∧
    (∀ d w0 e1 e2,
      (screenshot e1 (initOperator d) w0).1.currentRound = 1 ∧
      (screenshot e2 (screenshot e1 (initOperator d) w0).1
          (screenshot e1 (initOperator d) w0).2.1).1.currentRound = 2) ∧
    pullPath 1 ≠ pullPath 2 := by
  refine ⟨runOps_round cs s, ?_, fun ok p => rfl, fun env => rfl,
    fun d w0 e1 e2 => ⟨rfl, rfl⟩, ?_⟩
  · rw [runOps_round cs s]; omega
  · intro h
    exact absurd (pullPath_inj 1 2 h) (by omega)

/-- C7.  An `execute` call whose action type is none of `click`, `type`,
`swipe` issues no device command and returns normally (the unsupported
action is only logged), so the caller's loop can continue. -/
theorem unsupported_action_noop (ok : Bool) (p : ExecuteParams)
    (h1 : p.parsedPrediction.action_type ≠ "click")
    (h2 : p.parsedPrediction.action_type ≠ "type")
    (h3 : p.parsedPrediction.action_type ≠ "swipe") :
    execute ok p = { issued := [], threw := false } := by
  obtain ⟨⟨a, sb, eb, ct⟩, W, H⟩ := p
  have g1 : a ≠ "click" := h1
  have g2 : a ≠ "type" := h2
  have g3 : a ≠ "swipe" := h3
  simp [execute, g1, g2, g3]

theorem unsupported_action_noop_witness :
    execute true ⟨⟨"scroll", none, none, none⟩, 1, 1⟩ =
      { issued := [], threw := false } :=
  unsupported_action_noop true ⟨⟨"scroll", none, none, none⟩, 1, 1⟩
    (by decide) (by decide) (by decide)

/-- C8.  `execute` throws exactly when it issued a device command and the
Command Runner invocation for that command failed; benign no-op dispatches
(unresolved coordinates, unsupported action types) never throw. -/
theorem execute_throws_iff_command_failed (ok : Bool) (p : ExecuteParams) :
    (execute ok p).threw = true ↔ ((execute ok p).issued ≠ [] ∧ ok = false) := by
  obtain ⟨⟨a, sb, eb, ct⟩, W, H⟩ := p
  simp only [execute]
  repeat' split <;> try simp

/-- C9.  Two concurrent `screenshot` calls on one instance, under any
interleaving of their micro-steps: once both have executed their (atomic)
`currentRound++`, they hold distinct round numbers, their per-round pull
paths name distinct host files, and a pull writing the second call's file
leaves the first call's file untouched. -/
theorem concurrent_screenshots_distinct_rounds (c0 : Nat) (sched : List Bool)
    (ha : 0 < (runConc sched (concInit c0)).ta.pc)
    (hb : 0 < (runConc sched (concInit c0)).tb.pc) :
    ((runConc sched (concInit c0)).ta.round ≠ (runConc sched (concInit c0)).tb.round) ∧
    (pullPath (runConc sched (concInit c0)).ta.round ≠
      pullPath (runConc sched (concInit c0)).tb.round) ∧
    (∀ (fs : FsState) (d : FileData),
      fsRead (fsWrite fs (pullPath (runConc sched (concInit c0)).tb.round) d)
          (pullPath (runConc sched (concInit c0)).ta.round) =
        fsRead fs (pullPath (runConc sched (concInit c0)).ta.round)) := by
  have hinv := runConc_inv c0 sched
  set s := runConc sched (concInit c0) with hs
  have hne : s.ta.round ≠ s.tb.round := by
    rcases hinv with h | h | h | h
    · omega
    · omega
    · omega
    · rcases h.2.2.2 with ⟨h1, h2⟩ | ⟨h1, h2⟩ <;> omega
  refine ⟨hne, ?_, ?_⟩
  · intro h
    exact hne (pullPath_inj _ _ h)
  · intro fs d
    rw [fsRead_fsWrite]
    rw [if_neg]
    intro h
    exact hne (normPath_pullPath_inj _ _ h)

theorem concurrent_screenshots_distinct_rounds_witness :
    ((runConc [true, false] (concInit 5)).ta.round ≠
      (runConc [true, false] (concInit 5)).tb.round) ∧
    (pullPath (runConc [true, false] (concInit 5)).ta.round ≠
      pullPath (runConc [true, false] (concInit 5)).tb.round) :=
  ⟨(concurrent_screenshots_distinct_rounds 5 [true, false] (by decide) (by decide)).1,
   (concurrent_screenshots_distinct_rounds 5 [true, false] (by decide) (by decide)).2.1⟩

/-- C10.  The round counter is incremented before any capture, pull or
decode step, so it advances on failed calls too: after `n` sequential
`screenshot` calls on a fresh instance — whatever each call's outcome — the
counter equals `n`, the rounds consumed are exactly `1, 2, …, n` in order,
and no round is ever reused. -/
theorem round_advances_every_call (envs : List ShotEnv) (d : String) (w : World) :
    ((runShots envs (initOperator d) w).2.2.map Prod.fst =
      List.range' 1 envs.length) ∧
    ((runShots envs (initOperator d) w).1.currentRound = envs.length) ∧
    ((runShots envs (initOperator d) w).2.2.map Prod.fst).Nodup ∧
    (∀ env op w0, (screenshot env op w0).1.currentRound = op.currentRound + 1) := by
  have h := runShots_rounds envs (initOperator d) w
  have h1 : (runShots envs (initOperator d) w).2.2.map Prod.fst =
      List.range' 1 envs.length := by rw [h.1]; rfl
  have h2 : (runShots envs (initOperator d) w).1.currentRound = envs.length := by
    rw [h.2]; simp [initOperator]
  refine ⟨h1, h2, ?_, fun env op w0 => rfl⟩
  rw [h1]
  apply List.nodup_range'
  norm_num
